import Mathlib

/-!
# Verification of the sampler / quiz-session / dispatcher core of `app.py`

Shallow embedding of the core logic of `src/app.py` (a LINE chat bot serving
randomized Arabic content and multi-step personality quizzes).

Modelling conventions:
* Python dictionaries that the code reads with `.get(k, default)` are embedded
  as total functions; dictionaries indexed only at keys that are always present
  (`used_indices`, `user_game_state` after an `in` check) are embedded as total
  functions as well, with the would-be `KeyError` paths modelled explicitly
  where they are reachable.
* `random.choice(pool)` and `random.randint(0, m-1)` are modelled by oracle
  functions `choose : List Nat → Nat` and `randint : Nat → Nat` passed as
  parameters; `ValidChoose` states the contract of `random.choice` on a
  non-empty pool.  `random.randint(0, -1)` raises `ValueError` in Python, so
  the embedding of `get_random_index` returns `Option`, with `none` modelling
  that exception.
* A raised-and-reachable Python exception is modelled as `none` in an
  `Option`-valued result (or the `Reply.exception` marker in handler results,
  since `handle_message` catches every exception from a handler).
* Python strings are Lean `String`s; `str.lower()` is `String.toLower`,
  `str.strip()` is `String.trim`, `str.isdigit()` is restricted to ASCII
  digits (the only digit texts the routing claims exercise).
-/

/-- `str.lower()`: character-wise lowering (identity on the Arabic letters the
bot uses; ASCII letters are lowered). -/
def pyLower (s : String) : String := String.mk (s.data.map Char.toLower)

/-- `str.strip()`: drop leading and trailing whitespace. -/
def pyStrip (s : String) : String :=
  String.mk (((s.data.dropWhile Char.isWhitespace).reverse.dropWhile
    Char.isWhitespace).reverse)

/-- `str.isdigit()`, restricted to ASCII digits (the only digit texts the
routing claims exercise). -/
def pyIsDigit (s : String) : Bool :=
  decide (s.data ≠ []) && s.data.all Char.isDigit

/-- `int(text)` on a digit string. -/
def pyToNat (s : String) : Nat :=
  s.data.foldl (fun n c => n * 10 + (c.toNat - 48)) 0

/-- The contract of `random.choice`: on a non-empty pool it returns one of the
pool's elements. -/
def ValidChoose (choose : List Nat → Nat) : Prop :=
  ∀ l : List Nat, l ≠ [] → choose l ∈ l

/-- Concrete `random.choice` oracle used by witnesses: picks the head. -/
def headChoose : List Nat → Nat := fun l => l.headD 0

/-- Concrete `random.randint` oracle used by witnesses: always 0. -/
def zeroRand : Nat → Nat := fun _ => 0

theorem headChoose_mem : ValidChoose headChoose := by
  intro l hl
  cases l with
  | nil => exact absurd rfl hl
  | cons a t => simp [headChoose]

/-- The selection step of `ContentManager.get_random_index` (lines 119-127 of
`app.py`), after the cursor-reset check: build the pool of indices in
`[0, max_length)` not yet in the usage cursor; if non-empty pick one with
`random.choice`, record it and return it; otherwise fall back to
`random.randint(0, max_length - 1)` without recording — which raises
`ValueError` (modelled as `none`) when `max_length == 0`. -/
def sampler_select (choose : List Nat → Nat) (randint : Nat → Nat)
    (used : List Nat) (maxLength : Nat) : Option (Nat × List Nat) :=
  let available := (List.range maxLength).filter (fun i => decide (i ∉ used))
  if available = [] then
    if maxLength = 0 then none
    else some (randint maxLength, used)
  else
    some (choose available, used ++ [choose available])

/-- `ContentManager.get_random_index` (lines 113-127 of `app.py`): if the
usage cursor already holds `max_length` or more entries it is reset to empty,
then selection proceeds on the (possibly reset) cursor.  The returned pair is
(chosen index, new cursor). -/
def get_random_index (choose : List Nat → Nat) (randint : Nat → Nat)
    (used : List Nat) (maxLength : Nat) : Option (Nat × List Nat) :=
  if maxLength ≤ used.length then
    sampler_select choose randint [] maxLength
  else
    sampler_select choose randint used maxLength

/-- `k` successive calls to `get_random_index` with a fixed category size,
threading the usage cursor; returns the list of drawn indices in call order
together with the final cursor (`none` if any call raised). -/
def runSampler (choose : List Nat → Nat) (randint : Nat → Nat)
    (maxLength : Nat) : Nat → List Nat → Option (List Nat × List Nat)
  | 0, used => some ([], used)
  | k + 1, used =>
    match get_random_index choose randint used maxLength with
    | none => none
    | some (i, used') =>
      match runSampler choose randint maxLength k used' with
      | none => none
      | some (rest, final) => some (i :: rest, final)

example : runSampler headChoose zeroRand 2 2 [] = some ([0, 1], [0, 1]) := by decide

example : get_random_index headChoose zeroRand [0, 1] 2 = some (0, [0]) := by decide

example : get_random_index headChoose zeroRand [] 0 = none := by decide

lemma available_ne_nil (used : List Nat) (n : Nat) (h : used.length < n) :
    (List.range n).filter (fun i => decide (i ∉ used)) ≠ [] := by
  intro hemp
  have hsub : List.range n ⊆ used := by
    intro i hi
    by_contra hni
    have hmem : i ∈ (List.range n).filter (fun i => decide (i ∉ used)) := by
      rw [List.mem_filter]
      exact ⟨hi, by simpa using hni⟩
    rw [hemp] at hmem
    exact absurd hmem (List.not_mem_nil i)
  have hle := List.Subperm.length_le (List.subperm_of_subset (List.nodup_range n) hsub)
  rw [List.length_range] at hle
  omega

lemma sampler_select_lt (choose : List Nat → Nat) (randint : Nat → Nat)
    (used : List Nat) (n : Nat) (h : used.length < n) (hch : ValidChoose choose) :
    ∃ i, sampler_select choose randint used n = some (i, used ++ [i]) ∧
      i < n ∧ i ∉ used := by
  have hne := available_ne_nil used n h
  refine ⟨choose ((List.range n).filter (fun i => decide (i ∉ used))), ?_, ?_⟩
  · unfold sampler_select
    simp only [if_neg hne]
  · have hmem := hch _ hne
    rw [List.mem_filter, List.mem_range] at hmem
    exact ⟨hmem.1, by simpa using hmem.2⟩

lemma get_random_index_lt (choose : List Nat → Nat) (randint : Nat → Nat)
    (used : List Nat) (n : Nat) (h : used.length < n) (hch : ValidChoose choose) :
    ∃ i, get_random_index choose randint used n = some (i, used ++ [i]) ∧
      i < n ∧ i ∉ used := by
  unfold get_random_index
  rw [if_neg (by omega)]
  exact sampler_select_lt choose randint used n h hch

lemma runSampler_spec (choose : List Nat → Nat) (randint : Nat → Nat)
    (n : Nat) (hch : ValidChoose choose) :
    ∀ (k : Nat) (used0 : List Nat), used0.Nodup → used0.length + k ≤ n →
    ∃ results, runSampler choose randint n k used0 = some (results, used0 ++ results) ∧
      results.length = k ∧ (∀ i ∈ results, i < n) ∧ (used0 ++ results).Nodup := by
  intro k
  induction k with
  | zero =>
    intro used0 h0 _
    exact ⟨[], by simp [runSampler], rfl, by simp, by simpa⟩
  | succ k ih =>
    intro used0 h0 hle
    obtain ⟨i, hstep, hin, hni⟩ :=
      get_random_index_lt choose randint used0 n (by omega) hch
    have h0' : (used0 ++ [i]).Nodup := by
      rw [List.nodup_append]
      exact ⟨h0, List.nodup_singleton i, by simpa [List.disjoint_singleton] using hni⟩
    obtain ⟨rest, hrun, hlen, hmem, hnd⟩ :=
      ih (used0 ++ [i]) h0' (by simp; omega)
    refine ⟨i :: rest, ?_, by simp [hlen], ?_, ?_⟩
    · unfold runSampler
      rw [hstep]
      dsimp only
      rw [hrun]
      simp
    · intro j hj
      rcases List.mem_cons.mp hj with hj | hj
      · omega
      · exact hmem j hj
    · have : used0 ++ i :: rest = (used0 ++ [i]) ++ rest := by simp
      rw [this]
      exact hnd

lemma perm_range_of_nodup_lt (l : List Nat) (n : Nat) (hnd : l.Nodup)
    (hmem : ∀ i ∈ l, i < n) (hlen : l.length = n) : l.Perm (List.range n) := by
  have hsub : l ⊆ List.range n := fun i hi => List.mem_range.mpr (hmem i hi)
  obtain ⟨l', hp, hs⟩ := List.subperm_of_subset hnd hsub
  have hlen' : l'.length = (List.range n).length := by
    rw [List.length_range, hp.length_eq, hlen]
  rw [hs.eq_of_length hlen'] at hp
  exact hp.symm

/-- C1: starting from an empty usage cursor, `n` successive sampler calls for a
category of size `n > 0` return a permutation of `[0, n)` with no repeated
index, and the `(n+1)`-th call (cursor full, hence reset) returns an index that
already appeared among the first `n`: the first repeat occurs only after the
full cycle is exhausted. -/
theorem sampler_full_cycle (choose : List Nat → Nat) (randint : Nat → Nat)
    (n : Nat) (hn : 0 < n) (hch : ValidChoose choose) :
    ∃ results used1,
      runSampler choose randint n n [] = some (results, used1) ∧
      results.Nodup ∧ results.Perm (List.range n) ∧
      ∃ r used2, get_random_index choose randint used1 n = some (r, used2) ∧
        r ∈ results := by
  obtain ⟨results, hrun, hlen, hmem, hnd⟩ :=
    runSampler_spec choose randint n hch n [] List.nodup_nil (by simp)
  rw [List.nil_append] at hrun hnd
  have hperm := perm_range_of_nodup_lt results n hnd hmem hlen
  refine ⟨results, results, hrun, hnd, hperm, ?_⟩
  have hreset : n ≤ results.length := by omega
  obtain ⟨r, hsel, hr, _⟩ :=
    sampler_select_lt choose randint [] n (by simpa using hn) hch
  refine ⟨r, [] ++ [r], ?_, ?_⟩
  · unfold get_random_index
    rw [if_pos hreset]
    exact hsel
  · rw [hperm.mem_iff]
    exact List.mem_range.mpr hr

/-- Witness for C1 at `n = 2` with the head-picking choice oracle. -/
theorem sampler_full_cycle_witness :
    (0 < 2 ∧ ValidChoose headChoose) ∧
    (∃ results used1,
      runSampler headChoose zeroRand 2 2 [] = some (results, used1) ∧
      results.Nodup ∧ results.Perm (List.range 2) ∧
      ∃ r used2, get_random_index headChoose zeroRand used1 2 = some (r, used2) ∧
        r ∈ results) :=
  ⟨⟨by decide, headChoose_mem⟩,
   sampler_full_cycle headChoose zeroRand 2 (by decide) headChoose_mem⟩

/-- Pointwise update of a total-function model of a Python dict:
`d[k] = v`. -/
def setFun {α : Type} (f : String → α) (k : String) (v : α) : String → α :=
  fun x => if x = k then v else f x

/-- A story record from `stories.json` (`story.get('title', ...)`,
`story['part1']`, `'part2' in story`, `story.get('moral', '')`). -/
structure Story where
  title : Option String
  part1 : String
  part2 : Option String
  moral : Option String
deriving DecidableEq

/-- One quiz question from `personality_games.json`: a prompt and a mapping
from option label to option text (`q["question"]`, `q["options"]`). -/
structure Question where
  question : String
  options : List (String × String)
deriving DecidableEq

/-- One personality game: `game.get('title', ...)` and `game["questions"]`. -/
structure Game where
  title : Option String
  questions : List Question
deriving DecidableEq

/-- The mutable `ContentManager` state after `initialize` (lines 41-51 of
`app.py`): content collections plus the per-category usage cursors.
`detailed_results` is modelled in its intended dict shape
(game key → winning label → result text). -/
structure ContentState where
  contentFiles : String → List String
  usedIndices : String → List Nat
  storiesList : List Story
  gamesList : List Game
  detailedResults : String → Option (String → Option String)

/-- `ContentManager.get_content` (lines 129-136): look the category up in
`content_files` (default `[]`); empty collection returns the `None` sentinel
without touching the sampler; otherwise draw an index and return that line,
recording the new cursor for exactly this category.  The outer `Option` is the
exception layer (`none` = the call raised). -/
def get_content (choose : List Nat → Nat) (randint : Nat → Nat)
    (st : ContentState) (command : String) :
    Option (Option String × ContentState) :=
  let fileList := st.contentFiles command
  if fileList = [] then some (none, st)
  else
    match get_random_index choose randint (st.usedIndices command) fileList.length with
    | none => none
    | some (index, used') =>
      match fileList[index]? with
      | none => none
      | some line =>
        some (some line,
          { st with usedIndices := setFun st.usedIndices command used' })

/-- `ContentManager.get_story` (lines 162-168): `None` sentinel when
`stories_list` is empty, otherwise a sampler draw against the `"قصة"` cursor. -/
def get_story (choose : List Nat → Nat) (randint : Nat → Nat)
    (st : ContentState) : Option (Option Story × ContentState) :=
  if st.storiesList = [] then some (none, st)
  else
    match get_random_index choose randint (st.usedIndices "قصة") st.storiesList.length with
    | none => none
    | some (index, used') =>
      match st.storiesList[index]? with
      | none => none
      | some story =>
        some (some story,
          { st with usedIndices := setFun st.usedIndices "قصة" used' })

/-- C3 counterexample: the claim says a sampler call with collection size 0
returns a defined sentinel instead of raising; in fact the candidate pool is
empty and the fallback `random.randint(0, -1)` raises `ValueError` (modelled
as `none`, the exception layer — there is no non-exceptional sentinel return
for size 0). -/
theorem sampler_zero_raises :
    get_random_index headChoose zeroRand [] 0 = none := by decide

/-- C3 amended: a sampler call with size 0 raises (for every cursor state);
the empty-collection sentinel lives in the callers instead — `get_content`
returns the `None` sentinel for an empty category without invoking the
sampler, leaving the state untouched. -/
theorem sampler_zero_amended (choose : List Nat → Nat) (randint : Nat → Nat)
    (used : List Nat) (st : ContentState) (command : String)
    (h : st.contentFiles command = []) :
    get_random_index choose randint used 0 = none ∧
    get_content choose randint st command = some (none, st) := by
  constructor
  · unfold get_random_index
    rw [if_pos (Nat.zero_le _)]
    rfl
  · unfold get_content
    simp [h]

/-- Witness for the amended C3 on a concrete empty category. -/
theorem sampler_zero_amended_witness :
    ({ contentFiles := fun _ => [], usedIndices := fun _ => [],
       storiesList := [], gamesList := [],
       detailedResults := fun _ => none : ContentState }.contentFiles "سؤال" = []) ∧
    (get_random_index headChoose zeroRand [5] 0 = none ∧
     get_content headChoose zeroRand
       { contentFiles := fun _ => [], usedIndices := fun _ => [],
         storiesList := [], gamesList := [],
         detailedResults := fun _ => none } "سؤال" =
       some (none,
         { contentFiles := fun _ => [], usedIndices := fun _ => [],
           storiesList := [], gamesList := [],
           detailedResults := fun _ => none })) :=
  ⟨rfl, sampler_zero_amended headChoose zeroRand [5]
    { contentFiles := fun _ => [], usedIndices := fun _ => [],
      storiesList := [], gamesList := [],
      detailedResults := fun _ => none } "سؤال" rfl⟩

/-- The frame property: going from `st` to `st'`, every loaded content
collection is unchanged and at most the usage cursor of `command` differs. -/
def CursorFrame (st st' : ContentState) (command : String) : Prop :=
  st'.contentFiles = st.contentFiles ∧ st'.storiesList = st.storiesList ∧
  st'.gamesList = st.gamesList ∧ st'.detailedResults = st.detailedResults ∧
  ∀ c, c ≠ command → st'.usedIndices c = st.usedIndices c

/-- C10: a content fetch for category `c` mutates at most the usage cursor of
`c` — every other category's cursor and every loaded content collection
(content lines, stories, games, result table) is unchanged; likewise a story
fetch mutates at most the `"قصة"` cursor. -/
theorem sampler_frame (choose : List Nat → Nat) (randint : Nat → Nat)
    (st : ContentState) (command : String)
    (res : Option String) (st' : ContentState)
    (res2 : Option Story) (st2 : ContentState)
    (h1 : get_content choose randint st command = some (res, st'))
    (h2 : get_story choose randint st = some (res2, st2)) :
    CursorFrame st st' command ∧ CursorFrame st st2 "قصة" := by
  constructor
  · unfold get_content at h1
    by_cases hf : st.contentFiles command = []
    · rw [if_pos hf] at h1
      rw [Option.some.injEq, Prod.mk.injEq] at h1
      rw [← h1.2]
      exact ⟨rfl, rfl, rfl, rfl, fun c _ => rfl⟩
    · simp only [if_neg hf] at h1
      rcases hidx : get_random_index choose randint (st.usedIndices command)
          (st.contentFiles command).length with _ | ⟨index, used'⟩ <;>
        rw [hidx] at h1 <;> dsimp only at h1
      · exact Option.noConfusion h1
      · rcases hline : (st.contentFiles command)[index]? with _ | line <;>
          rw [hline] at h1 <;> dsimp only at h1
        · exact Option.noConfusion h1
        · rw [Option.some.injEq, Prod.mk.injEq] at h1
          rw [← h1.2]
          refine ⟨rfl, rfl, rfl, rfl, fun c hc => ?_⟩
          simp [setFun, hc]
  · unfold get_story at h2
    by_cases hf : st.storiesList = []
    · rw [if_pos hf] at h2
      rw [Option.some.injEq, Prod.mk.injEq] at h2
      rw [← h2.2]
      exact ⟨rfl, rfl, rfl, rfl, fun c _ => rfl⟩
    · simp only [if_neg hf] at h2
      rcases hidx : get_random_index choose randint (st.usedIndices "قصة")
          st.storiesList.length with _ | ⟨index, used'⟩ <;>
        rw [hidx] at h2 <;> dsimp only at h2
      · exact Option.noConfusion h2
      · rcases hstory : st.storiesList[index]? with _ | story <;>
          rw [hstory] at h2 <;> dsimp only at h2
        · exact Option.noConfusion h2
        · rw [Option.some.injEq, Prod.mk.injEq] at h2
          rw [← h2.2]
          refine ⟨rfl, rfl, rfl, rfl, fun c hc => ?_⟩
          simp [setFun, hc]

/-- A concrete content state with one question line and one story, used by
witnesses. -/
def witnessContentState : ContentState :=
  { contentFiles := fun c => if c = "سؤال" then ["سطر١"] else []
    usedIndices := fun _ => []
    storiesList := [{ title := some "قصة١", part1 := "جزء١",
                      part2 := some "جزء٢", moral := none }]
    gamesList := []
    detailedResults := fun _ => none }

/-- Witness for C10 on a concrete fetch of a question and of a story. -/
theorem sampler_frame_witness :
    (get_content headChoose zeroRand witnessContentState "سؤال" =
      some (some "سطر١",
        { witnessContentState with
            usedIndices := setFun witnessContentState.usedIndices "سؤال" [0] })) ∧
    (get_story headChoose zeroRand witnessContentState =
      some (some { title := some "قصة١", part1 := "جزء١",
                   part2 := some "جزء٢", moral := none },
        { witnessContentState with
            usedIndices := setFun witnessContentState.usedIndices "قصة" [0] })) ∧
    (CursorFrame witnessContentState
      { witnessContentState with
          usedIndices := setFun witnessContentState.usedIndices "سؤال" [0] } "سؤال" ∧
     CursorFrame witnessContentState
      { witnessContentState with
          usedIndices := setFun witnessContentState.usedIndices "قصة" [0] } "قصة") :=
  ⟨rfl, rfl, sampler_frame headChoose zeroRand witnessContentState "سؤال" _ _ _ _ rfl rfl⟩

/-- The canonical answer labels, in the fixed enumeration order of the
`count` dict of `calculate_result` (line 899 of `app.py`). -/
def canonicalLabels : List String := ["أ", "ب", "ج"]

/-- The `answer_map` of `handle_game_answer` (line 814). -/
def answer_map : List (String × String) :=
  [("1", "أ"), ("2", "ب"), ("3", "ج"), ("a", "أ"), ("b", "ب"), ("c", "ج")]

/-- `answer_map.get(text.lower(), text)` (line 815): normalize raw answer text
to a canonical label, defaulting to the (unmapped) text itself. -/
def normalize_answer (text : String) : String :=
  (answer_map.lookup (pyLower text)).getD text

/-- The tally of one label over the submitted answers: the `count` dict of
`calculate_result` (lines 899-902) at that label. -/
def countLabel (answers : List String) (l : String) : Nat :=
  (answers.filter (fun a => a == l)).length

/-- `max(count, key=count.get)` (line 904): Python's `max` scans the dict keys
in insertion order `أ، ب، ج` and replaces the current best only on a strictly
greater tally, so the first label in canonical order wins ties. -/
def calculate_most_common (answers : List String) : String :=
  List.foldl
    (fun best x => if countLabel answers best < countLabel answers x then x else best)
    "أ" ["ب", "ج"]

/-- Position of a label in the canonical enumeration order `أ، ب، ج`. -/
def labelPos (l : String) : Nat :=
  if l = "أ" then 0 else if l = "ب" then 1 else 2

/-- `calculate_result` (lines 897-913): tally, pick the winning label, look it
up in `detailed_results` with a generic fallback, and append the tally
summary. -/
def calculate_result (detailedResults : String → Option (String → Option String))
    (answers : List String) (gameIndex : Nat) : String :=
  let mostCommon := calculate_most_common answers
  let gameKey := "لعبة" ++ toString (gameIndex + 1)
  let fallback := "✅ إجابتك الأكثر: " ++ mostCommon ++ "\n\n🎯 نتيجتك تعكس شخصية فريدة!"
  let resultText :=
    match detailedResults gameKey with
    | none => fallback
    | some table => (table mostCommon).getD fallback
  resultText ++ "\n\n📊 إحصائياتك:\nأ: " ++ toString (countLabel answers "أ") ++
    " | ب: " ++ toString (countLabel answers "ب") ++
    " | ج: " ++ toString (countLabel answers "ج")

example : calculate_most_common ["أ", "أ", "ب"] = "أ" := by decide

example : calculate_most_common ["ب", "ج", "ج"] = "ج" := by decide

/-- C4: quiz scoring is a deterministic function of the answer list — the
winner is the label with the maximum tally, with ties broken by the first
label in the canonical order `أ` before `ب` before `ج`; in particular
`["أ","أ","ب"]` scores `أ` and the full tie `["أ","ب","ج"]` scores `أ`. -/
theorem quiz_scoring (answers : List String) (l : String)
    (hl : l ∈ canonicalLabels) :
    calculate_most_common ["أ", "أ", "ب"] = "أ" ∧
    calculate_most_common ["أ", "ب", "ج"] = "أ" ∧
    calculate_most_common answers ∈ canonicalLabels ∧
    countLabel answers l ≤ countLabel answers (calculate_most_common answers) ∧
    (countLabel answers l = countLabel answers (calculate_most_common answers) →
      labelPos (calculate_most_common answers) ≤ labelPos l) := by
  have hl' : l = "أ" ∨ l = "ب" ∨ l = "ج" := by simpa [canonicalLabels] using hl
  refine ⟨by decide, by decide, ?_, ?_, ?_⟩ <;>
    simp only [calculate_most_common, List.foldl_cons, List.foldl_nil] <;>
    split_ifs with h1 h2 h2 <;>
    rcases hl' with rfl | rfl | rfl <;>
    first
      | decide
      | omega
      | (intro h; exact absurd h (by omega))
      | (intro h; decide)

/-- Witness for C4 at a concrete tie between `ب` and `ج`: the earlier label
`ب` wins. -/
theorem quiz_scoring_witness :
    ("ج" ∈ canonicalLabels) ∧
    calculate_most_common ["أ", "أ", "ب"] = "أ" ∧
    calculate_most_common ["أ", "ب", "ج"] = "أ" ∧
    calculate_most_common ["ب", "ج"] ∈ canonicalLabels ∧
    countLabel ["ب", "ج"] "ج" ≤ countLabel ["ب", "ج"] (calculate_most_common ["ب", "ج"]) ∧
    labelPos (calculate_most_common ["ب", "ج"]) ≤ labelPos "ج" := by
  have h := quiz_scoring ["ب", "ج"] "ج" (by decide)
  exact ⟨by decide, h.1, h.2.1, h.2.2.1, h.2.2.2.1, h.2.2.2.2 (by decide)⟩

/-- One user's quiz session: the `user_game_state[user_id]` dict
(lines 787-791 of `app.py`). -/
structure GameState where
  gameIndex : Nat
  questionIndex : Nat
  answers : List String
deriving DecidableEq

/-- The observable outcome of one handler run.  Payloads carry only the data
the claims are about; visual flex-message layout is presentation.
`exception` marks a handler raising a (caught) Python exception. -/
inductive Reply
  | questionPrompt (q : Question)
  | nextQuestion (q : Question) (current total : Nat)
  | invalidGameNumber
  | reprompt
  | gameResult (text : String)
  | storyFlex (story : Story)
  | storyContinuationText (text : String)
  | noContinuation
  | noPendingStory
  | contentUnavailable
  | exception
deriving DecidableEq

/-- `handle_game_selection` (lines 783-809): on a number inside
`[1, len(games_list)]` store a fresh session (game `num - 1`, question 0, no
answers) and prompt the game's first question — reading `questions[0]` raises
if the game has no questions, after the session was already stored; outside
the range, reply that the game number is invalid and leave the state alone. -/
def handle_game_selection (games : List Game)
    (s : String → Option GameState) (userId : String) (num : Nat) :
    (String → Option GameState) × Reply :=
  if 1 ≤ num ∧ num ≤ games.length then
    let s' := setFun s userId (some ⟨num - 1, 0, []⟩)
    match games[num - 1]? with
    | none => (s', .exception)
    | some game =>
      match game.questions[0]? with
      | none => (s', .exception)
      | some q => (s', .questionPrompt q)
  else (s, .invalidGameNumber)

/-- `handle_game_answer` (lines 811-895): normalize the text; an unrecognized
answer re-prompts and leaves the session untouched; a recognized label is
appended to the answers and the question index advances — then either the next
question is prompted with a `[current/total]` progress header, or, when the
questions are exhausted, the result is computed and the session deleted.
The mutation order of the source is kept: the answer is appended before
`games_list[...]` is read, so the `IndexError` path (unreachable from intact
sessions) keeps the appended answer without advancing the index. -/
def handle_game_answer (games : List Game)
    (detailedResults : String → Option (String → Option String))
    (s : String → Option GameState) (userId : String) (text : String) :
    (String → Option GameState) × Reply :=
  match s userId with
  | none => (s, .exception)
  | some st =>
    let answer := normalize_answer text
    if answer ∈ canonicalLabels then
      match games[st.gameIndex]? with
      | none =>
        (setFun s userId (some { st with answers := st.answers ++ [answer] }),
         .exception)
      | some game =>
        let st' : GameState :=
          ⟨st.gameIndex, st.questionIndex + 1, st.answers ++ [answer]⟩
        if st'.questionIndex < game.questions.length then
          match game.questions[st'.questionIndex]? with
          | none => (setFun s userId (some st'), .exception)
          | some q =>
            (setFun s userId (some st'),
             .nextQuestion q (st'.questionIndex + 1) game.questions.length)
        else
          (setFun s userId none,
           .gameResult (calculate_result detailedResults st'.answers st.gameIndex))
    else (s, .reprompt)

/-- `COMMANDS_MAP` (lines 179-188): canonical category → accepted surface
forms, in the dict's insertion order. -/
def COMMANDS_MAP : List (String × List String) :=
  [("سؤال", ["سؤال", "سوال", "اسأله", "اسئلة", "اسأل"]),
   ("تحدي", ["تحدي", "تحديات", "تحد"]),
   ("اعتراف", ["اعتراف", "اعترافات"]),
   ("أكثر", ["أكثر", "اكثر", "زيادة"]),
   ("شعر", ["شعر", "ابيات"]),
   ("قصيدة", ["قصيدة", "قصيده", "شاعر", "شعراء"]),
   ("حكمة", ["حكمة", "حكم", "اقتباس", "اقتباسات"]),
   ("قصة", ["قصة", "قصه", "حكاية"])]

/-- `find_command` (lines 190-196): the first category whose lowered variants
contain the lowered, stripped text. -/
def find_command (text : String) : Option String :=
  let textLower := pyStrip (pyLower text)
  (COMMANDS_MAP.find? (fun kv => (kv.2.map pyLower).contains textLower)).map
    (fun kv => kv.1)

/-- The help synonyms of `handle_message` (line 595). -/
def helpWords : List String := ["مساعدة", "help", "بداية", "start", "قائمة", "menu"]

/-- The story-continuation synonyms (line 610). -/
def continueWords : List String := ["كمل", "كمل القصة", "التكملة", "استمر", "تكملة"]

/-- The games-list synonyms (line 615). -/
def gameWords : List String := ["لعبه", "لعبة", "العاب", "ألعاب", "game"]

/-- The routing decision of `handle_message` (lines 587-643) on an inbound
(stripped) text, as an abstract action. -/
inductive BotAction
  | showHelp
  | fetchContent (command : String)
  | storyContinuation
  | listGames
  | selectGame (n : Nat)
  | gameAnswer (text : String)
  | defaultReply
deriving DecidableEq

/-- The dispatch order of `handle_message`: help words, then content commands,
then story continuation, then the games list, then **bare digits to game
selection**, then — only for non-digit text — game answers when a session
exists, else the default reply. -/
def route (gameState : String → Option GameState) (userId : String)
    (text : String) : BotAction :=
  let textLower := pyLower text
  if textLower ∈ helpWords then .showHelp
  else
    match find_command text with
    | some command => .fetchContent command
    | none =>
      if textLower ∈ continueWords then .storyContinuation
      else if textLower ∈ gameWords then .listGames
      else if pyIsDigit text then .selectGame (pyToNat text)
      else if (gameState userId).isSome then .gameAnswer text
      else .defaultReply

example : route (fun _ => none) "u" "سؤال" = .fetchContent "سؤال" := by decide

example : route (fun _ => none) "u" "مرحبا" = .defaultReply := by decide

/-- C2 evidence: the digit check of `handle_message` (line 630) precedes the
session check (line 635), so a bare `"2"` from a user **with an in-progress
session** is still routed to game selection, not to the game-answer handler —
even though `handle_game_answer`'s own `answer_map` explicitly maps `"2"` to
the valid label `ب` (that digit entry is unreachable dead code).  This
contradicts the claimed precedence of game answers over game selection. -/
theorem digit_routing_bug :
    route (fun u => if u = "user1" then some ⟨0, 0, []⟩ else none) "user1" "2" =
      .selectGame 2 ∧
    normalize_answer "2" = "ب" ∧
    ("2" ∈ (answer_map.map (fun kv => kv.1))) ∧
    BotAction.selectGame 2 ≠ BotAction.gameAnswer "2" := by
  refine ⟨by decide, by decide, by decide, by decide⟩

/-- No text from this user is ever routed to the game-answer handler. -/
def NeverGameAnswer (m : String → Option GameState) (userId : String) : Prop :=
  ∀ t t', route m userId t ≠ BotAction.gameAnswer t'

lemma neverGameAnswer_of_none (m : String → Option GameState) (u : String)
    (hm : m u = none) : NeverGameAnswer m u := by
  intro t t' h
  unfold route at h
  dsimp only at h
  rcases hf : find_command t with _ | c <;> rw [hf] at h <;> dsimp only at h <;>
    split_ifs at h <;>
    first
      | exact BotAction.noConfusion h
      | (rename_i hs; simp [hm] at hs)

/-- C5: with a session in progress, answer text that does not normalize to a
canonical label re-prompts and leaves the session map literally unchanged,
while a recognized label (the fixed map `1/a/أ → أ`, `2/b/ب → ب`, `3/c/ج → ج`,
raw canonical letters accepted unchanged) appends the canonical label to the
answer sequence and advances the question index by one (here stated for a
non-final question, `hq`; the final question is claim C6's completion). -/
theorem answer_validation (games : List Game)
    (dr : String → Option (String → Option String))
    (s : String → Option GameState) (userId textBad textGood : String)
    (st : GameState) (game : Game) (q : Question)
    (hst : s userId = some st)
    (hg : games[st.gameIndex]? = some game)
    (hbad : normalize_answer textBad ∉ canonicalLabels)
    (hgood : normalize_answer textGood ∈ canonicalLabels)
    (hq : game.questions[st.questionIndex + 1]? = some q) :
    handle_game_answer games dr s userId textBad = (s, .reprompt) ∧
    handle_game_answer games dr s userId textGood =
      (setFun s userId (some ⟨st.gameIndex, st.questionIndex + 1,
          st.answers ++ [normalize_answer textGood]⟩),
       .nextQuestion q (st.questionIndex + 2) game.questions.length) ∧
    setFun s userId (some (⟨st.gameIndex, st.questionIndex + 1,
        st.answers ++ [normalize_answer textGood]⟩ : GameState)) userId =
      some ⟨st.gameIndex, st.questionIndex + 1,
        st.answers ++ [normalize_answer textGood]⟩ ∧
    normalize_answer "1" = "أ" ∧ normalize_answer "a" = "أ" ∧
    normalize_answer "أ" = "أ" ∧ normalize_answer "2" = "ب" ∧
    normalize_answer "b" = "ب" ∧ normalize_answer "ب" = "ب" ∧
    normalize_answer "3" = "ج" ∧ normalize_answer "c" = "ج" ∧
    normalize_answer "ج" = "ج" := by
  have hlt : st.questionIndex + 1 < game.questions.length := by
    by_contra hno
    rw [List.getElem?_eq_none (by omega)] at hq
    exact Option.noConfusion hq
  refine ⟨?_, ?_, by simp [setFun], by decide, by decide, by decide, by decide,
    by decide, by decide, by decide, by decide, by decide⟩
  · unfold handle_game_answer
    rw [hst]
    dsimp only
    rw [if_neg hbad]
  · unfold handle_game_answer
    rw [hst]
    dsimp only
    rw [if_pos hgood, hg]
    dsimp only
    rw [if_pos hlt, hq]

/-- Witness for C5: a two-question game, rejecting `"س"` and accepting `"a"`. -/
theorem answer_validation_witness :
    ((fun u => if u = "مستخدم" then
        some (⟨0, 0, []⟩ : GameState) else none) "مستخدم" = some ⟨0, 0, []⟩) ∧
    (normalize_answer "س" ∉ canonicalLabels) ∧
    (normalize_answer "a" ∈ canonicalLabels) ∧
    handle_game_answer [⟨some "لعبة١", [⟨"س١", [("أ", "خيار")]⟩, ⟨"س٢", [("ب", "خيار")]⟩]⟩]
      (fun _ => none)
      (fun u => if u = "مستخدم" then some ⟨0, 0, []⟩ else none) "مستخدم" "س" =
      ((fun u => if u = "مستخدم" then some ⟨0, 0, []⟩ else none), .reprompt) ∧
    handle_game_answer [⟨some "لعبة١", [⟨"س١", [("أ", "خيار")]⟩, ⟨"س٢", [("ب", "خيار")]⟩]⟩]
      (fun _ => none)
      (fun u => if u = "مستخدم" then some ⟨0, 0, []⟩ else none) "مستخدم" "a" =
      (setFun (fun u => if u = "مستخدم" then some ⟨0, 0, []⟩ else none) "مستخدم"
        (some ⟨0, 1, ["أ"]⟩),
       .nextQuestion ⟨"س٢", [("ب", "خيار")]⟩ 2 2) := by
  have h := answer_validation
    [⟨some "لعبة١", [⟨"س١", [("أ", "خيار")]⟩, ⟨"س٢", [("ب", "خيار")]⟩]⟩]
    (fun _ => none)
    (fun u => if u = "مستخدم" then some ⟨0, 0, []⟩ else none)
    "مستخدم" "س" "a" ⟨0, 0, []⟩
    ⟨some "لعبة١", [⟨"س١", [("أ", "خيار")]⟩, ⟨"س٢", [("ب", "خيار")]⟩]⟩
    ⟨"س٢", [("ب", "خيار")]⟩
    (by decide) (by decide) (by decide) (by decide) (by decide)
  exact ⟨by decide, by decide, by decide, h.1, h.2.1⟩

/-- C6: answering the last remaining question with a recognized label computes
the result from the accumulated answers (including this final one) and deletes
the user's session entry; afterwards no text from that user can route to the
game-answer handler, because the session check of `handle_message` fails. -/
theorem game_completion (games : List Game)
    (dr : String → Option (String → Option String))
    (s : String → Option GameState) (userId text : String)
    (st : GameState) (game : Game)
    (hst : s userId = some st)
    (hg : games[st.gameIndex]? = some game)
    (hlast : st.questionIndex + 1 = game.questions.length)
    (hans : normalize_answer text ∈ canonicalLabels) :
    handle_game_answer games dr s userId text =
      (setFun s userId none,
       .gameResult (calculate_result dr (st.answers ++ [normalize_answer text])
         st.gameIndex)) ∧
    setFun s userId none userId = none ∧
    NeverGameAnswer (setFun s userId none) userId := by
  refine ⟨?_, by simp [setFun], ?_⟩
  · unfold handle_game_answer
    rw [hst]
    dsimp only
    rw [if_pos hans, hg]
    dsimp only
    rw [if_neg (by omega : ¬ st.questionIndex + 1 < game.questions.length)]
  · exact neverGameAnswer_of_none _ _ (by simp [setFun])

/-- Witness for C6: a one-question game finished by the answer `"a"`. -/
theorem game_completion_witness :
    ((fun u => if u = "مستخدم" then
        some (⟨0, 0, []⟩ : GameState) else none) "مستخدم" = some ⟨0, 0, []⟩) ∧
    (normalize_answer "a" ∈ canonicalLabels) ∧
    (handle_game_answer [⟨some "لعبة١", [⟨"س١", [("أ", "خيار")]⟩]⟩]
      (fun _ => none)
      (fun u => if u = "مستخدم" then some ⟨0, 0, []⟩ else none) "مستخدم" "a" =
      (setFun (fun u => if u = "مستخدم" then some ⟨0, 0, []⟩ else none) "مستخدم" none,
       .gameResult (calculate_result (fun _ => none) ["أ"] 0)) ∧
     setFun (fun u => if u = "مستخدم" then some (⟨0, 0, []⟩ : GameState) else none)
       "مستخدم" none "مستخدم" = none ∧
     NeverGameAnswer
       (setFun (fun u => if u = "مستخدم" then some ⟨0, 0, []⟩ else none) "مستخدم" none)
       "مستخدم") :=
  ⟨rfl, by decide,
   game_completion [⟨some "لعبة١", [⟨"س١", [("أ", "خيار")]⟩]⟩] (fun _ => none)
     (fun u => if u = "مستخدم" then some ⟨0, 0, []⟩ else none) "مستخدم" "a"
     ⟨0, 0, []⟩ ⟨some "لعبة١", [⟨"س١", [("أ", "خيار")]⟩]⟩
     (by decide) (by decide) (by decide) (by decide)⟩

/-- The reachable-session invariant: every stored session has its question
index equal to the number of stored answers, only canonical labels among the
answers, and a game index that is valid for the loaded games list. -/
def SessionInv (games : List Game) (m : String → Option GameState) : Prop :=
  ∀ u st, m u = some st →
    st.questionIndex = st.answers.length ∧
    (∀ a ∈ st.answers, a ∈ canonicalLabels) ∧
    st.gameIndex < games.length

lemma sessionInv_set (games : List Game) (m : String → Option GameState)
    (u : String) (v : Option GameState) (hm : SessionInv games m)
    (hv : ∀ stt, v = some stt →
      stt.questionIndex = stt.answers.length ∧
      (∀ a ∈ stt.answers, a ∈ canonicalLabels) ∧
      stt.gameIndex < games.length) :
    SessionInv games (setFun m u v) := by
  intro u' stt hu'
  by_cases h : u' = u
  · subst h
    rw [setFun, if_pos rfl] at hu'
    exact hv stt hu'
  · rw [setFun, if_neg h] at hu'
    exact hm u' stt hu'

/-- C9: the session invariant holds on every reachable state — game selection
establishes it (question index 0, no answers, in-range game index) and answer
handling preserves it (append one canonical label and advance by one, or
delete the session). -/
theorem session_invariant (games : List Game)
    (dr : String → Option (String → Option String))
    (m : String → Option GameState) (userId : String) (num : Nat) (text : String)
    (hm : SessionInv games m) :
    SessionInv games (handle_game_selection games m userId num).1 ∧
    SessionInv games (handle_game_answer games dr m userId text).1 := by
  constructor
  · unfold handle_game_selection
    by_cases hr : 1 ≤ num ∧ num ≤ games.length
    · rw [if_pos hr]
      dsimp only
      have hset : SessionInv games
          (setFun m userId (some ⟨num - 1, 0, []⟩)) := by
        refine sessionInv_set games m userId _ hm ?_
        intro stt h
        cases h
        refine ⟨rfl, by simp, ?_⟩
        dsimp only
        omega
      rcases hgame : games[num - 1]? with _ | game <;> dsimp only
      · exact hset
      · rcases hq : game.questions[0]? with _ | q <;> dsimp only
        · exact hset
        · exact hset
    · rw [if_neg hr]
      exact hm
  · unfold handle_game_answer
    rcases hst : m userId with _ | st
    · exact hm
    · dsimp only
      obtain ⟨hqa, hlab, hgi⟩ := hm userId st hst
      by_cases hans : normalize_answer text ∈ canonicalLabels
      · rw [if_pos hans]
        rcases hgame : games[st.gameIndex]? with _ | game
        · rw [List.getElem?_eq_getElem hgi] at hgame
          exact Option.noConfusion hgame
        · dsimp only
          by_cases hrem : st.questionIndex + 1 < game.questions.length
          · rw [if_pos hrem]
            have hset : SessionInv games (setFun m userId
                (some ⟨st.gameIndex, st.questionIndex + 1,
                  st.answers ++ [normalize_answer text]⟩)) := by
              refine sessionInv_set games m userId _ hm ?_
              intro stt h
              cases h
              refine ⟨by simp [hqa], ?_, hgi⟩
              intro a ha
              rcases List.mem_append.mp ha with ha | ha
              · exact hlab a ha
              · rw [List.mem_singleton.mp ha]
                exact hans
            rcases hq : game.questions[st.questionIndex + 1]? with _ | q <;>
              dsimp only
            · exact hset
            · exact hset
          · rw [if_neg hrem]
            refine sessionInv_set games m userId none hm ?_
            intro stt h
            exact Option.noConfusion h
      · rw [if_neg hans]
        exact hm

/-- Witness for C9: selecting game 1 and answering `"b"` from a concrete
invariant-satisfying state. -/
theorem session_invariant_witness :
    SessionInv [⟨some "لعبة١", [⟨"س١", [("أ", "خيار")]⟩]⟩]
      (fun u => if u = "مستخدم" then some ⟨0, 0, []⟩ else none) ∧
    SessionInv [⟨some "لعبة١", [⟨"س١", [("أ", "خيار")]⟩]⟩]
      (handle_game_selection [⟨some "لعبة١", [⟨"س١", [("أ", "خيار")]⟩]⟩]
        (fun u => if u = "مستخدم" then some ⟨0, 0, []⟩ else none) "زائر" 1).1 ∧
    SessionInv [⟨some "لعبة١", [⟨"س١", [("أ", "خيار")]⟩]⟩]
      (handle_game_answer [⟨some "لعبة١", [⟨"س١", [("أ", "خيار")]⟩]⟩] (fun _ => none)
        (fun u => if u = "مستخدم" then some ⟨0, 0, []⟩ else none) "مستخدم" "b").1 := by
  have hm : SessionInv [⟨some "لعبة١", [⟨"س١", [("أ", "خيار")]⟩]⟩]
      (fun u => if u = "مستخدم" then some ⟨0, 0, []⟩ else none) := by
    intro u st h
    dsimp only at h
    by_cases hu : u = "مستخدم"
    · rw [if_pos hu] at h
      cases h
      exact ⟨rfl, by simp, by simp⟩
    · rw [if_neg hu] at h
      exact Option.noConfusion h
  have h := session_invariant [⟨some "لعبة١", [⟨"س١", [("أ", "خيار")]⟩]⟩]
    (fun _ => none) (fun u => if u = "مستخدم" then some ⟨0, 0, []⟩ else none)
    "زائر" 1 "b" hm
  have h2 := session_invariant [⟨some "لعبة١", [⟨"س١", [("أ", "خيار")]⟩]⟩]
    (fun _ => none) (fun u => if u = "مستخدم" then some ⟨0, 0, []⟩ else none)
    "مستخدم" 1 "b" hm
  exact ⟨hm, h.1, h2.2⟩

/-- The outcome of reading one configured file: absent, raising on
read/parse, or successfully yielding content. -/
inductive FileData (α : Type)
  | missing
  | failed
  | ok (content : α)
deriving DecidableEq

/-- The parsed shape of a JSON source (only the shapes the loader's defaults
distinguish matter: lists vs dicts vs anything else). -/
inductive PyJson
  | arr (xs : List String)
  | obj (kvs : List (String × String))
  | other

/-- `str.endswith(suffix)`. -/
def pyEndsWith (s suffix : String) : Bool := suffix.data.isSuffixOf s.data

/-- `ContentManager.load_file_lines` (lines 53-65): a missing file or a read
failure degrades to `[]` (logged, never raises); a successful read keeps the
stripped non-empty lines. -/
def load_file_lines (fs : String → FileData (List String)) (filename : String) :
    List String :=
  match fs filename with
  | .missing => []
  | .failed => []
  | .ok rawLines => (rawLines.map pyStrip).filter (fun l => decide (l ≠ ""))

/-- `ContentManager.load_json_file` (lines 67-79): a missing file or a
read/parse failure degrades to `[]` when the filename ends in `"s.json"` and
to `{}` otherwise (logged, never raises). -/
def load_json_file (fs : String → FileData PyJson) (filename : String) : PyJson :=
  match fs filename with
  | .missing => if pyEndsWith filename "s.json" then .arr [] else .obj []
  | .failed => if pyEndsWith filename "s.json" then .arr [] else .obj []
  | .ok data => data

/-- C7: loading never aborts — for every configured source, a missing file and
a file whose contents fail to read or parse both degrade to an empty
collection: `[]` for text sources, and the suffix-selected empty list/dict for
structured sources. -/
theorem load_degrades (fsText : String → FileData (List String))
    (fsJson : String → FileData PyJson) (name1 name2 : String)
    (h1 : fsText name1 = .missing ∨ fsText name1 = .failed)
    (h2 : fsJson name2 = .missing ∨ fsJson name2 = .failed) :
    load_file_lines fsText name1 = [] ∧
    load_json_file fsJson name2 =
      (if pyEndsWith name2 "s.json" then .arr [] else .obj []) := by
  constructor
  · unfold load_file_lines
    rcases h1 with h1 | h1 <;> rw [h1]
  · unfold load_json_file
    rcases h2 with h2 | h2 <;> rw [h2]

/-- Witness for C7: `questions.txt` missing and `poems.json` failing to
parse. -/
theorem load_degrades_witness :
    ((fun _ => FileData.missing (α := List String)) "questions.txt" = .missing ∨
     (fun _ => FileData.missing (α := List String)) "questions.txt" = .failed) ∧
    ((fun _ => FileData.failed (α := PyJson)) "poems.json" = .missing ∨
     (fun _ => FileData.failed (α := PyJson)) "poems.json" = .failed) ∧
    load_file_lines (fun _ => FileData.missing) "questions.txt" = [] ∧
    load_json_file (fun _ => FileData.failed) "poems.json" =
      (if pyEndsWith "poems.json" "s.json" then .arr [] else .obj []) := by
  have h := load_degrades (fun _ => FileData.missing) (fun _ => FileData.failed)
    "questions.txt" "poems.json" (Or.inl rfl) (Or.inr rfl)
  exact ⟨Or.inl rfl, Or.inr rfl, h.1, h.2⟩

/-- The `"قصة"` branch of `handle_content_command` (lines 704-725): fetch a
random story; if none is available, reply so without touching any per-user
state; otherwise store it as the user's single pending story (overwriting any
earlier one: `user_story_state[event.source.user_id] = story`) and send it. -/
def handle_story_fetch (choose : List Nat → Nat) (randint : Nat → Nat)
    (st : ContentState) (storyState : String → Option Story) (userId : String) :
    Option (ContentState × (String → Option Story) × Reply) :=
  match get_story choose randint st with
  | none => none
  | some (none, st') => some (st', storyState, .contentUnavailable)
  | some (some story, st') =>
    some (st', setFun storyState userId (some story), .storyFlex story)

/-- `handle_story_continuation` (lines 755-781): a pending story is popped
(consumed) whether or not it has a continuation; its `part2` (with the moral
appended when non-empty) is sent, or a no-continuation notice; with no pending
story the user is told none was started. -/
def handle_story_continuation (storyState : String → Option Story)
    (userId : String) : (String → Option Story) × Reply :=
  match storyState userId with
  | some story =>
    let storyState' := setFun storyState userId none
    match story.part2 with
    | some part2 =>
      let moral := story.moral.getD ""
      let fullText :=
        if moral ≠ "" then part2 ++ "\n\n🌟 العبرة:\n" ++ moral else part2
      (storyState', .storyContinuationText fullText)
    | none => (storyState', .noContinuation)
  | none => (storyState, .noPendingStory)

lemma get_random_index_pos (choose : List Nat → Nat) (randint : Nat → Nat)
    (used : List Nat) (n : Nat) (hn : 0 < n) (hch : ValidChoose choose) :
    ∃ i used', get_random_index choose randint used n = some (i, used') ∧ i < n := by
  unfold get_random_index
  by_cases hr : n ≤ used.length
  · rw [if_pos hr]
    obtain ⟨i, h, hi, -⟩ := sampler_select_lt choose randint [] n (by simpa) hch
    exact ⟨i, _, h, hi⟩
  · rw [if_neg hr]
    obtain ⟨i, h, hi, -⟩ := sampler_select_lt choose randint used n (by omega) hch
    exact ⟨i, _, h, hi⟩

/-- C8: fetching a story (when one is available) stores exactly one pending
story for that user, overwriting any earlier value; a continue command
consumes it — the pending entry is removed and the reply is not the
no-pending-story message — and a second continue command from the same user
gets the no-pending-story message. -/
theorem story_lifecycle (choose : List Nat → Nat) (randint : Nat → Nat)
    (st : ContentState) (storyState : String → Option Story) (userId : String)
    (hs : st.storiesList ≠ []) (hch : ValidChoose choose) :
    ∃ story st',
      handle_story_fetch choose randint st storyState userId =
        some (st', setFun storyState userId (some story), .storyFlex story) ∧
      story ∈ st.storiesList ∧
      setFun storyState userId (some story) userId = some story ∧
      ∃ sst2 r2,
        handle_story_continuation (setFun storyState userId (some story)) userId =
          (sst2, r2) ∧
        sst2 userId = none ∧ r2 ≠ .noPendingStory ∧
        handle_story_continuation sst2 userId = (sst2, .noPendingStory) := by
  have hn : 0 < st.storiesList.length := List.length_pos.mpr hs
  obtain ⟨i, used', hidx, hi⟩ :=
    get_random_index_pos choose randint (st.usedIndices "قصة")
      st.storiesList.length hn hch
  have hget : get_story choose randint st =
      some (some st.storiesList[i],
        { st with usedIndices := setFun st.usedIndices "قصة" used' }) := by
    unfold get_story
    rw [if_neg hs, hidx]
    dsimp only
    rw [List.getElem?_eq_getElem hi]
  refine ⟨st.storiesList[i],
    { st with usedIndices := setFun st.usedIndices "قصة" used' },
    ?_, List.getElem_mem hi, by simp [setFun], ?_⟩
  · unfold handle_story_fetch
    rw [hget]
  · have hpend : setFun storyState userId (some st.storiesList[i]) userId =
        some st.storiesList[i] := by simp [setFun]
    rcases hp2 : st.storiesList[i].part2 with _ | part2
    · refine ⟨setFun (setFun storyState userId (some st.storiesList[i])) userId none,
        .noContinuation, ?_, by simp [setFun], by simp, ?_⟩
      · unfold handle_story_continuation
        rw [hpend]
        dsimp only
        rw [hp2]
      · unfold handle_story_continuation
        rw [show setFun (setFun storyState userId (some st.storiesList[i]))
              userId none userId = none by simp [setFun]]
    · refine ⟨setFun (setFun storyState userId (some st.storiesList[i])) userId none,
        .storyContinuationText
          (if st.storiesList[i].moral.getD "" ≠ "" then
            part2 ++ "\n\n🌟 العبرة:\n" ++ st.storiesList[i].moral.getD ""
          else part2),
        ?_, by simp [setFun], by simp, ?_⟩
      · unfold handle_story_continuation
        rw [hpend]
        dsimp only
        rw [hp2]
      · unfold handle_story_continuation
        rw [show setFun (setFun storyState userId (some st.storiesList[i]))
              userId none userId = none by simp [setFun]]

/-- Witness for C8 on the concrete one-story content state. -/
theorem story_lifecycle_witness :
    (witnessContentState.storiesList ≠ []) ∧ ValidChoose headChoose ∧
    (∃ story st',
      handle_story_fetch headChoose zeroRand witnessContentState
          (fun _ => none) "مستخدم" =
        some (st', setFun (fun _ => none) "مستخدم" (some story), .storyFlex story) ∧
      story ∈ witnessContentState.storiesList ∧
      setFun (fun _ => none) "مستخدم" (some story) "مستخدم" = some story ∧
      ∃ sst2 r2,
        handle_story_continuation
          (setFun (fun _ => none) "مستخدم" (some story)) "مستخدم" = (sst2, r2) ∧
        sst2 "مستخدم" = none ∧ r2 ≠ .noPendingStory ∧
        handle_story_continuation sst2 "مستخدم" = (sst2, .noPendingStory)) :=
  ⟨by decide, headChoose_mem,
   story_lifecycle headChoose zeroRand witnessContentState (fun _ => none)
     "مستخدم" (by decide) headChoose_mem⟩
